import Mathlib

/-!
Verification of the agent-orchestration runtime and its observability UI
(game-data-analytics fork of the customer-service agents demo).

The development shallowly embeds:
* the wire data model of `src/ui/lib/types.ts` (`Agent`, `AgentEvent`,
  `GuardrailCheck`, `GameAnalyticsContext`);
* the client turn handler `handleSendMessage` and the boot effect of the
  Next.js page (`src/unnamed/part_000`);
* the context-panel rendering logic of
  `src/ui/components/conversation-context.tsx`;
* the conversation runtime (ConversationEngine, GuardrailEngine,
  ToolInvoker, HandoffResolver), which is not shipped under `src/` and is
  therefore modelled from the specification.
-/

/-- A JavaScript/JSON value, as handled untyped by the UI code
(`Record<string, any>`, `any` fields of `types.ts`). -/
inductive JsValue where
  | vNull : JsValue
  | vBool (b : Bool) : JsValue
  | vNum (n : Int) : JsValue
  | vStr (s : String) : JsValue
  | vArr (elems : List JsValue) : JsValue
  | vObj (fields : List (String × JsValue)) : JsValue
deriving Repr

namespace JsValue

/-- JavaScript truthiness test: `null`, `false`, `0` and `""` are falsy;
every object and array is truthy. -/
def truthy : JsValue → Bool
  | vNull => false
  | vBool b => b
  | vNum n => n ≠ 0
  | vStr s => ¬ s.isEmpty
  | vArr _ => true
  | vObj _ => true

/-- `typeof value === 'object'` in JavaScript: true for objects, arrays and
`null`. -/
def typeofObject : JsValue → Bool
  | vNull => true
  | vArr _ => true
  | vObj _ => true
  | _ => false

/-- Property lookup `value[key]` as used by the UI code: first binding wins
on objects, `undefined` (modelled as `none`) elsewhere. -/
def objGet (v : JsValue) (key : String) : Option JsValue :=
  match v with
  | vObj fields => (fields.find? (fun p => p.1 == key)).map Prod.snd
  | _ => none

/-- String conversion as performed by JavaScript template literals and
`Array.prototype.join` on primitive values. -/
def toDisplayString : JsValue → String
  | vNull => "null"
  | vBool b => if b then "true" else "false"
  | vNum n => toString n
  | vStr s => s
  | vArr _ => ""
  | vObj _ => "[object Object]"

/-- Minimal JSON string escaping (backslash and double quote). -/
def jsonEscape (s : String) : String :=
  (s.replace "\\" "\\\\").replace "\"" "\\\""

/-- Comma-join of already-rendered pieces. -/
def joinComma : List String → String
  | [] => ""
  | [x] => x
  | x :: xs => x ++ "," ++ joinComma xs

/-- `JSON.stringify` on the embedded value type. -/
def jsonStringify : JsValue → String
  | vNull => "null"
  | vBool b => if b then "true" else "false"
  | vNum n => toString n
  | vStr s => "\"" ++ jsonEscape s ++ "\""
  | vArr elems =>
      "[" ++ joinComma (elems.attach.map (fun ⟨e, h⟩ => jsonStringify e)) ++ "]"
  | vObj fields =>
      "\x7b" ++
        joinComma (fields.attach.map
          (fun ⟨p, h⟩ => "\"" ++ jsonEscape p.1 ++ "\":" ++ jsonStringify p.2))
        ++ "\x7d"
decreasing_by
  all_goals simp_wf
  · have := List.sizeOf_lt_of_mem h
    omega
  · have h1 := List.sizeOf_lt_of_mem h
    have h2 : sizeOf p.2 < sizeOf p := by cases p; simp
    omega

/-- Structural equality of JavaScript values (used to detect context
changes). -/
def beq (x y : JsValue) : Bool :=
  match x, y with
  | vNull, vNull => true
  | vBool a, vBool b => a == b
  | vNum a, vNum b => a == b
  | vStr a, vStr b => a == b
  | vArr xs, vArr ys =>
      xs.length == ys.length &&
        (xs.zip ys).attach.all (fun ⟨ab, h⟩ => beq ab.1 ab.2)
  | vObj fs, vObj gs =>
      fs.length == gs.length &&
        (fs.zip gs).attach.all (fun ⟨pq, h⟩ =>
          pq.1.1 == pq.2.1 && beq pq.1.2 pq.2.2)
  | _, _ => false
termination_by sizeOf x
decreasing_by
  · have := List.sizeOf_lt_of_mem (List.of_mem_zip h).1
    simp
    omega
  · have h1 := List.sizeOf_lt_of_mem (List.of_mem_zip h).1
    have h2 : sizeOf pq.1.2 < sizeOf pq.1 := by cases pq.1; simp
    simp
    omega

instance : BEq JsValue := ⟨beq⟩

end JsValue

/-- `Array.prototype.join(sep)`: elements are string-converted, with `null`
rendered as the empty string. -/
def jsArrayJoin (sep : String) (elems : List JsValue) : String :=
  String.intercalate sep
    (elems.map (fun e =>
      match e with
      | .vNull => ""
      | _ => e.toDisplayString))

/-! ## Wire data model (`src/ui/lib/types.ts`) -/

/-- `EventType` of `types.ts`: the five event kinds. -/
inductive EventType where
  | message
  | handoff
  | tool_call
  | tool_output
  | context_update
deriving Repr, DecidableEq

/-- The optional `metadata` object of `AgentEvent` in `types.ts`; every
field is optional. -/
structure EventMetadata where
  source_agent : Option String := none
  target_agent : Option String := none
  tool_name : Option String := none
  tool_args : Option (List (String × JsValue)) := none
  tool_result : Option JsValue := none
  context_key : Option String := none
  context_value : Option JsValue := none
  changes : Option (List (String × JsValue)) := none
deriving Repr

/-- `AgentEvent` of `types.ts` (timestamps modelled as epoch
milliseconds). -/
structure AgentEvent where
  id : String
  type : EventType
  agent : String
  content : String
  timestamp : Nat
  metadata : Option EventMetadata := none
deriving Repr

/-- An event as it arrives over the wire: the client code tolerates a
missing timestamp (`e.timestamp ?? now + index` in `part_000`). -/
structure WireEvent where
  id : String
  type : EventType
  agent : String
  content : String
  timestamp : Option Nat := none
  metadata : Option EventMetadata := none
deriving Repr

/-- `GuardrailCheck` of `types.ts`. -/
structure GuardrailCheck where
  id : String
  name : String
  input : String
  reasoning : String
  passed : Bool
  timestamp : Nat
deriving Repr

/-- `Agent` of `types.ts`: the agent summary exposed to the UI (name,
description, handoff target names, tool names, input guardrail
identifiers — no instruction payload). -/
structure Agent where
  name : String
  description : String
  handoffs : List String
  tools : List String
  input_guardrails : List String
deriving Repr, DecidableEq

/-- The `time_range` object of `GameAnalyticsContext` in `types.ts`. -/
structure TimeRange where
  start : Option String := none
  «end» : Option String := none
  period : Option String := none
deriving Repr, BEq

/-- `GameAnalyticsContext` of `types.ts`: every field is optional. -/
structure GameAnalyticsContext where
  game_id : Option String := none
  player_id : Option String := none
  time_range : Option TimeRange := none
  analysis_type : Option String := none
  metrics : Option (List String) := none
  filters : Option (List (String × JsValue)) := none
  session_id : Option String := none
deriving Repr

/-- Chat message role (`"user" | "assistant"` in `types.ts`). -/
inductive Role where
  | user
  | assistant
deriving Repr, DecidableEq

/-- `Message` of `types.ts`. -/
structure Message where
  id : String
  content : String
  role : Role
  agent : Option String := none
  timestamp : Nat
deriving Repr

/-- One entry of the `messages` array of a turn response, as read by the
client (`m.content`, `m.agent`). -/
structure MessageItem where
  content : String
  agent : String
deriving Repr, DecidableEq

/-- A turn response as read by the client code in `part_000`
(`data.conversation_id`, `data.current_agent`, `data.context`,
`data.messages`, `data.events`, `data.agents`, `data.guardrails`); the
four list fields are guarded by truthiness checks, so they are optional. -/
structure TurnData where
  conversation_id : String
  current_agent : String
  context : GameAnalyticsContext
  messages : Option (List MessageItem) := none
  events : Option (List WireEvent) := none
  agents : Option (List Agent) := none
  guardrails : Option (List GuardrailCheck) := none
deriving Repr

/-! ## Client page state and turn handler (`src/unnamed/part_000`) -/

/-- The React state of the `Home` page component. -/
structure ClientState where
  messages : List Message
  events : List AgentEvent
  agents : List Agent
  currentAgent : String
  guardrails : List GuardrailCheck
  context : GameAnalyticsContext
  conversationId : Option String
  isLoading : Bool
deriving Repr

/-- The initial `useState` values of the `Home` component. -/
def initialClientState : ClientState :=
  { messages := [], events := [], agents := [], currentAgent := "",
    guardrails := [], context := {}, conversationId := none,
    isLoading := false }

/-- Timestamp-stamping of incoming events:
`{...e, timestamp: e.timestamp ?? t + index}`. -/
def stampEvents (t : Nat) (es : List WireEvent) : List AgentEvent :=
  es.enum.map (fun ie =>
    { id := ie.2.id, type := ie.2.type, agent := ie.2.agent,
      content := ie.2.content, timestamp := ie.2.timestamp.getD (t + ie.1),
      metadata := ie.2.metadata })

/-- JavaScript truthiness of the held conversation id
(`string | null`): `null` and the empty string are falsy. -/
def conversationIdFalsy : Option String → Bool
  | none => true
  | some s => s.isEmpty

/-- The id sent with a request: `conversationId ?? ""`. -/
def sentConversationId (st : ClientState) : String :=
  st.conversationId.getD ""

/-- `handleSendMessage` of the `Home` component: appends the user message,
calls the API (whose response is `data`), conditionally stores the
conversation id, replaces agent/context/guardrail state, appends stamped
events and assistant responses. `now` and `responseTime` are the two
`Date.now()` readings; `uid` and `rid` are the generated message ids. -/
def handleSendMessage (st : ClientState) (content : String) (data : TurnData)
    (now responseTime : Nat) (uid : String) (rid : Nat → String) : ClientState :=
  let userMsg : Message :=
    { id := uid, content := content, role := .user, agent := none,
      timestamp := now }
  let responses : List Message :=
    match data.messages with
    | some ms =>
        ms.enum.map (fun im =>
          { id := rid im.1, content := im.2.content, role := .assistant,
            agent := some im.2.agent, timestamp := responseTime + im.1 })
    | none => []
  { messages := (st.messages ++ [userMsg]) ++ responses,
    events :=
      match data.events with
      | some es => st.events ++ stampEvents responseTime es
      | none => st.events,
    agents := (data.agents).getD st.agents,
    currentAgent := data.current_agent,
    guardrails := (data.guardrails).getD st.guardrails,
    context := data.context,
    conversationId :=
      if conversationIdFalsy st.conversationId then some data.conversation_id
      else st.conversationId,
    isLoading := false }

/-! ## Context panel rendering
(`src/ui/components/conversation-context.tsx`) -/

/-- `Array.isArray(value)`. -/
def isArrayValue : JsValue → Bool
  | .vArr _ => true
  | _ => false

/-- One side of the time-range display: `value.start || 'N/A'` inside a
template literal — a truthy property is string-converted, a falsy or
absent one becomes `'N/A'`. -/
def timeRangeSide (o : Option JsValue) : String :=
  match o with
  | some v => if v.truthy then v.toDisplayString else "N/A"
  | none => "N/A"

/-- The display-value formatting of `ConversationContext`: a truthy
`time_range` object becomes `"start - end"`, a `metrics` array is joined
with `", "`, any other truthy object is JSON-stringified, and anything
else is passed through unchanged. -/
def formatDisplayValue (key : String) (value : JsValue) : JsValue :=
  if key == "time_range" && value.typeofObject && value.truthy then
    .vStr (timeRangeSide (value.objGet "start") ++ " - " ++
      timeRangeSide (value.objGet "end"))
  else if key == "metrics" && isArrayValue value then
    .vStr (jsArrayJoin ", "
      (match value with
       | .vArr elems => elems
       | _ => []))
  else if value.typeofObject && value.truthy then
    .vStr (JsValue.jsonStringify value)
  else value

/-- The value actually rendered for one context entry:
`{displayValue || "null"}`. -/
def renderedContextValue (key : String) (value : JsValue) : JsValue :=
  let dv := formatDisplayValue key value
  if dv.truthy then dv else .vStr "null"

/-! ## Conversation runtime

The runtime itself (ConversationEngine, GuardrailEngine, ToolInvoker,
HandoffResolver, AgentRegistry) is not shipped under `src/`; the
definitions below are modelled from the specification (§3, §4, §6, §7). -/

/-- Modelled from the spec: `AgentDefinition` (§3) — the full registry
entry, including the opaque instruction payload that must never be exposed
to the UI. -/
structure AgentDefinition where
  name : String
  description : String
  instructions : String
  tools : List String
  handoffs : List String
  input_guardrails : List String
deriving Repr, DecidableEq

/-- Modelled from the spec: `AgentDefinitionSummary` (§6) — the projection
of a registry entry sent to the UI: name, description, allowed handoff
target names, allowed tool names and guardrail identifiers, never the
instruction payload. -/
def summarize (d : AgentDefinition) : Agent :=
  { name := d.name, description := d.description, handoffs := d.handoffs,
    tools := d.tools, input_guardrails := d.input_guardrails }

/-- Modelled from the spec: `AgentRegistry.get` (§4.2), on the static
catalog of agent definitions. -/
def regGet (reg : List AgentDefinition) (n : String) : Option AgentDefinition :=
  reg.find? (fun d => d.name == n)

/-- Modelled from the spec: a guardrail evaluator (§4.1) maps a guardrail
identifier and the raw user input to a pass/fail verdict plus reasoning;
the concrete checks (Relevance, Jailbreak) are opaque model-backed
collaborators. -/
def GuardrailEval := String → String → Bool × String

/-- Modelled from the spec: GuardrailEngine (§4.1) — every guardrail
declared on the active agent is evaluated, in declaration order, with no
short-circuiting. -/
def runGuardrails (ge : GuardrailEval) (agent : AgentDefinition)
    (input : String) (t : Nat) : List GuardrailCheck :=
  agent.input_guardrails.enum.map (fun ig =>
    let r := ge ig.2 input
    { id := "guardrail-" ++ toString ig.1, name := ig.2, input := input,
      reasoning := r.2, passed := r.1, timestamp := t })

/-- Modelled from the spec: the fixed refusal text synthesized when a
guardrail trips (§4.1; the wording is the one documented in the original
demo README). -/
def refusalText : String :=
  "Sorry, I can only answer questions related to airline travel."

/-- Modelled from the spec: the safe degraded message used when an
authorization violation occurs (§7: the turn "degrades to the agent could
not do that" and completes with a safe message). -/
def degradedMessageText : String :=
  "The agent could not do that."

/-- Modelled from the spec: the generic, non-leaking failure message
surfaced to the end user for non-authorization failures (§7). -/
def genericFailureText : String :=
  "Something went wrong while processing the request."

/-- Modelled from the spec: one answer of the model capability (§4.5 step
3) — a final text message, a tool-call request, or a handoff request. -/
inductive ModelAction where
  | finalMessage (text : String)
  | toolCall (name : String) (args : List (String × JsValue))
  | handoffRequest (target : String)
deriving Repr

/-- Modelled from the spec: the opaque "ask the model" capability (§1):
given the active agent (instructions, toolset) and the readable context,
it returns one `ModelAction`. -/
def Capability := AgentDefinition → GameAnalyticsContext → ModelAction

/-- Modelled from the spec: an opaque tool implementation (§4.3) with
read/write access to the analysis context. -/
def ToolImpl := List (String × JsValue) → GameAnalyticsContext →
  JsValue × GameAnalyticsContext

/-- Modelled from the spec: failures of the tool invoker (§7). -/
inductive ToolError where
  | toolNotPermitted
  | toolExecutionFailed
deriving Repr, DecidableEq

/-- Modelled from the spec: turn-level failure kinds (§7) relevant to the
iteration loop. -/
inductive TurnError where
  | handoffLoopDetected
  | turnIterationLimitExceeded
deriving Repr, DecidableEq

/-- JSON view of a time range (absent parts serialize as null). -/
def timeRangeToJs (tr : TimeRange) : JsValue :=
  .vObj [("start", (tr.start.map .vStr).getD .vNull),
         ("end", (tr.«end».map .vStr).getD .vNull),
         ("period", (tr.period.map .vStr).getD .vNull)]

/-- Field access on the analysis context by field name: a present field
yields its JSON value, an absent or unknown field yields `none`
(undefined/null), never an error. -/
def contextGet (c : GameAnalyticsContext) (field : String) : Option JsValue :=
  if field == "game_id" then c.game_id.map .vStr
  else if field == "player_id" then c.player_id.map .vStr
  else if field == "time_range" then c.time_range.map timeRangeToJs
  else if field == "analysis_type" then c.analysis_type.map .vStr
  else if field == "metrics" then
    c.metrics.map (fun ms => .vArr (ms.map .vStr))
  else if field == "filters" then c.filters.map .vObj
  else if field == "session_id" then c.session_id.map .vStr
  else none

/-- The JSON value of a context field, with absent fields as null. -/
def contextFieldJs (c : GameAnalyticsContext) (field : String) : JsValue :=
  (contextGet c field).getD .vNull

/-- The names of the context fields whose values differ between two
analysis contexts. -/
def changedFields (a b : GameAnalyticsContext) : List String :=
  (if a.game_id == b.game_id then [] else ["game_id"]) ++
  (if a.player_id == b.player_id then [] else ["player_id"]) ++
  (if a.time_range == b.time_range then [] else ["time_range"]) ++
  (if a.analysis_type == b.analysis_type then [] else ["analysis_type"]) ++
  (if a.metrics == b.metrics then [] else ["metrics"]) ++
  (if a.filters == b.filters then [] else ["filters"]) ++
  (if a.session_id == b.session_id then [] else ["session_id"])

/-- The changed field names with their new values, as recorded on a
`context_update` event. -/
def changesOf (a b : GameAnalyticsContext) : List (String × JsValue) :=
  (changedFields a b).map (fun n => (n, contextFieldJs b n))

/-- A `message` event (ids are assigned once per turn, timestamps by the
client). -/
def messageEvent (agentName text : String) : WireEvent :=
  { id := "", type := .message, agent := agentName, content := text }

/-- A `handoff` event with source/target metadata. -/
def handoffEvent (src tgt : String) : WireEvent :=
  { id := "", type := .handoff, agent := src,
    content := src ++ " -> " ++ tgt,
    metadata := some { source_agent := some src, target_agent := some tgt } }

/-- A `tool_call` event with tool name and arguments. -/
def toolCallEvent (agentName toolName : String)
    (args : List (String × JsValue)) : WireEvent :=
  { id := "", type := .tool_call, agent := agentName, content := toolName,
    metadata := some { tool_name := some toolName, tool_args := some args } }

/-- A `tool_output` event with the raw result. -/
def toolOutputEvent (agentName toolName : String) (result : JsValue) :
    WireEvent :=
  { id := "", type := .tool_output, agent := agentName, content := toolName,
    metadata := some { tool_name := some toolName,
                       tool_result := some result } }

/-- A `context_update` event carrying the changed fields with their new
values. -/
def contextUpdateEvent (agentName : String)
    (changes : List (String × JsValue)) : WireEvent :=
  { id := "", type := .context_update, agent := agentName,
    content := "context updated",
    metadata := some { changes := some changes } }

/-- The outcome of one tool invocation: result or typed failure, the
events emitted, the names of the tool implementations actually executed,
and the resulting context. -/
structure InvokeResult where
  outcome : Except ToolError JsValue
  events : List WireEvent
  executed : List String
  newContext : GameAnalyticsContext

/-- Modelled from the spec: `ToolInvoker.invoke` (§4.3). A tool name
outside the calling agent's allowed set fails with `ToolNotPermitted`
before the underlying implementation is reached and emits no events;
otherwise the implementation runs between a `tool_call` and a
`tool_output` event, plus a `context_update` event exactly when the
context changed. -/
def invoke (tools : List (String × ToolImpl)) (agent : AgentDefinition)
    (toolName : String) (args : List (String × JsValue))
    (ctx : GameAnalyticsContext) : InvokeResult :=
  if toolName ∈ agent.tools then
    match (tools.find? (fun p => p.1 == toolName)).map Prod.snd with
    | some impl =>
        let r := impl args ctx
        { outcome := .ok r.1,
          events := [toolCallEvent agent.name toolName args,
                     toolOutputEvent agent.name toolName r.1] ++
            (if changedFields ctx r.2 = [] then []
             else [contextUpdateEvent agent.name (changesOf ctx r.2)]),
          executed := [toolName], newContext := r.2 }
    | none =>
        { outcome := .error .toolExecutionFailed,
          events := [toolCallEvent agent.name toolName args],
          executed := [], newContext := ctx }
  else
    { outcome := .error .toolNotPermitted, events := [], executed := [],
      newContext := ctx }

/-- The outcome of the per-turn iteration loop. -/
structure LoopResult where
  outcome : Except TurnError (List MessageItem)
  events : List WireEvent
  modelCalls : Nat
  finalAgent : String
  finalContext : GameAnalyticsContext

/-- Modelled from the spec: the ConversationEngine iteration loop (§4.5
steps 2–6): the capability is invoked, tool requests loop (bounded by the
iteration budget `iBudget`, exceeding it fails with
`TurnIterationLimitExceeded`), a valid handoff re-enters the loop with the
new agent (bounded by the handoff budget `hBudget`, exceeding it fails
with `HandoffLoopDetected`), an invalid tool or handoff request degrades
to a safe message (§7), and a final message ends the loop. -/
def runLoop (cap : Capability) (tools : List (String × ToolImpl))
    (reg : List AgentDefinition) (hBudget iBudget : Nat)
    (agent : AgentDefinition) (ctx : GameAnalyticsContext) : LoopResult :=
  match iBudget with
  | 0 =>
      { outcome := .error .turnIterationLimitExceeded, events := [],
        modelCalls := 0, finalAgent := agent.name, finalContext := ctx }
  | i + 1 =>
    match cap agent ctx with
    | .finalMessage text =>
        { outcome := .ok [⟨text, agent.name⟩],
          events := [messageEvent agent.name text],
          modelCalls := 1, finalAgent := agent.name, finalContext := ctx }
    | .toolCall nm args =>
        let inv := invoke tools agent nm args ctx
        match inv.outcome with
        | .ok _ =>
            let rest := runLoop cap tools reg hBudget i agent inv.newContext
            { outcome := rest.outcome, events := inv.events ++ rest.events,
              modelCalls := rest.modelCalls + 1,
              finalAgent := rest.finalAgent,
              finalContext := rest.finalContext }
        | .error _ =>
            { outcome := .ok [⟨degradedMessageText, agent.name⟩],
              events := inv.events ++
                [messageEvent agent.name degradedMessageText],
              modelCalls := 1, finalAgent := agent.name, finalContext := ctx }
    | .handoffRequest target =>
        if target ∈ agent.handoffs then
          match regGet reg target with
          | some next =>
              match hBudget with
              | 0 =>
                  { outcome := .error .handoffLoopDetected, events := [],
                    modelCalls := 1, finalAgent := agent.name,
                    finalContext := ctx }
              | h + 1 =>
                  let rest := runLoop cap tools reg h (i + 1) next ctx
                  { outcome := rest.outcome,
                    events := handoffEvent agent.name target :: rest.events,
                    modelCalls := rest.modelCalls + 1,
                    finalAgent := rest.finalAgent,
                    finalContext := rest.finalContext }
          | none =>
              { outcome := .ok [⟨degradedMessageText, agent.name⟩],
                events := [messageEvent agent.name degradedMessageText],
                modelCalls := 1, finalAgent := agent.name,
                finalContext := ctx }
        else
          { outcome := .ok [⟨degradedMessageText, agent.name⟩],
            events := [messageEvent agent.name degradedMessageText],
            modelCalls := 1, finalAgent := agent.name, finalContext := ctx }
termination_by (hBudget, iBudget)

/-- Modelled from the spec: the default handoff-chain bound (§4.4). -/
def maxHandoffs : Nat := 2

/-- Modelled from the spec: the default per-turn iteration bound (§4.5
step 4). -/
def maxTurnIterations : Nat := 10

/-- Per-turn unique event ids, assigned by position. -/
def assignEventIds (es : List WireEvent) : List WireEvent :=
  es.enum.map (fun ie => { ie.2 with id := "evt-" ++ toString ie.1 })

/-- The full result of one engine turn: the wire response plus how often
the model capability was invoked and how the loop ended. -/
structure EngineTurnResult where
  response : TurnData
  modelCalls : Nat
  outcome : Except TurnError Unit

/-- Modelled from the spec: `ConversationEngine` driving one turn (§4.5):
guardrails run first on the active agent; on overall failure the model
capability is skipped entirely and a fixed refusal is synthesized, with a
`message` event and the verdicts still recorded; otherwise the iteration
loop runs, and loop failures surface a generic failure message (§7). The
response carries conversation id, current agent, context, messages,
events, guardrail verdicts and the agent summaries (§6). -/
def runTurn (cap : Capability) (tools : List (String × ToolImpl))
    (ge : GuardrailEval) (reg : List AgentDefinition) (cid : String)
    (agent : AgentDefinition) (ctx : GameAnalyticsContext) (input : String)
    (t : Nat) : EngineTurnResult :=
  let verdicts := runGuardrails ge agent input t
  if verdicts.all (fun v => v.passed) then
    let r := runLoop cap tools reg maxHandoffs maxTurnIterations agent ctx
    match r.outcome with
    | .ok msgs =>
        { response :=
            { conversation_id := cid, current_agent := r.finalAgent,
              context := r.finalContext, messages := some msgs,
              events := some (assignEventIds r.events),
              agents := some (reg.map summarize),
              guardrails := some verdicts },
          modelCalls := r.modelCalls, outcome := .ok () }
    | .error e =>
        { response :=
            { conversation_id := cid, current_agent := r.finalAgent,
              context := r.finalContext,
              messages := some [⟨genericFailureText, r.finalAgent⟩],
              events := some (assignEventIds r.events),
              agents := some (reg.map summarize),
              guardrails := some verdicts },
          modelCalls := r.modelCalls, outcome := .error e }
  else
    { response :=
        { conversation_id := cid, current_agent := agent.name,
          context := ctx, messages := some [⟨refusalText, agent.name⟩],
          events := some (assignEventIds [messageEvent agent.name refusalText]),
          agents := some (reg.map summarize),
          guardrails := some verdicts },
      modelCalls := 0, outcome := .ok () }

/-- The type-specific metadata that the specification requires each event
kind to carry: source/target agent names for `handoff`, tool name and
arguments for `tool_call`, the raw result for `tool_output`, the changed
fields for `context_update`. -/
def carriesTypedMetadata (e : AgentEvent) : Prop :=
  match e.type with
  | .message => True
  | .handoff => ∃ m, e.metadata = some m ∧
      m.source_agent.isSome = true ∧ m.target_agent.isSome = true
  | .tool_call => ∃ m, e.metadata = some m ∧
      m.tool_name.isSome = true ∧ m.tool_args.isSome = true
  | .tool_output => ∃ m, e.metadata = some m ∧ m.tool_result.isSome = true
  | .context_update => ∃ m, e.metadata = some m ∧ m.changes.isSome = true

/-- A two-agent registry whose agents hand off to each other — the
smallest registry on which an indefinitely chained handoff can be
attempted. -/
def chainRegistry : List AgentDefinition :=
  [⟨"Triage Agent", "routing", "instr-a", [], ["Analytics Agent"], []⟩,
   ⟨"Analytics Agent", "analytics", "instr-b", [], ["Triage Agent"], []⟩]

/-- A model capability that always requests a handoff to the first allowed
target of the active agent. -/
def alwaysHandoffCap : Capability :=
  fun a _ => .handoffRequest (a.handoffs.headD "")

/-- The numeric value of a decimal digit string (inverts `Nat.repr`,
whence the per-turn event ids are pairwise distinct). -/
def decimalVal (ds : List Char) : Nat :=
  ds.foldl (fun a c => a * 10 + (c.toNat - 48)) 0

/-! ## Theorems -/

/-- C2: for every agent and every tool name not in that agent's allowed
tool set, `invoke` fails with `ToolNotPermitted`, the underlying tool
implementation is never executed, no `tool_call` or `tool_output` event is
emitted, and the context is untouched. -/
theorem tool_not_permitted_blocks_invocation
    (tools : List (String × ToolImpl)) (agent : AgentDefinition)
    (toolName : String) (args : List (String × JsValue))
    (ctx : GameAnalyticsContext) (h : toolName ∉ agent.tools) :
    (invoke tools agent toolName args ctx).outcome =
        .error .toolNotPermitted ∧
    (invoke tools agent toolName args ctx).events = [] ∧
    (invoke tools agent toolName args ctx).executed = [] ∧
    (invoke tools agent toolName args ctx).newContext = ctx := by
  simp [invoke, h]

theorem tool_not_permitted_blocks_invocation_witness :
    "export_raw_data" ∉
      (⟨"Player Behavior Agent", "behavior analysis", "hidden instructions",
        ["analyze_player_behavior"], ["Triage Agent"],
        ["relevance"]⟩ : AgentDefinition).tools ∧
    ((invoke []
        ⟨"Player Behavior Agent", "behavior analysis", "hidden instructions",
          ["analyze_player_behavior"], ["Triage Agent"], ["relevance"]⟩
        "export_raw_data" [] {}).outcome = .error .toolNotPermitted ∧
      (invoke []
        ⟨"Player Behavior Agent", "behavior analysis", "hidden instructions",
          ["analyze_player_behavior"], ["Triage Agent"], ["relevance"]⟩
        "export_raw_data" [] {}).events = [] ∧
      (invoke []
        ⟨"Player Behavior Agent", "behavior analysis", "hidden instructions",
          ["analyze_player_behavior"], ["Triage Agent"], ["relevance"]⟩
        "export_raw_data" [] {}).executed = [] ∧
      (invoke []
        ⟨"Player Behavior Agent", "behavior analysis", "hidden instructions",
          ["analyze_player_behavior"], ["Triage Agent"], ["relevance"]⟩
        "export_raw_data" [] {}).newContext = {}) :=
  ⟨by decide, tool_not_permitted_blocks_invocation _ _ _ _ _ (by decide)⟩

/-- C5: the event trace after a processed turn extends the trace before
it — every prior event is unchanged and in its original position, and new
events are only appended at the end. -/
theorem event_trace_append_only
    (st : ClientState) (content : String) (data : TurnData)
    (now responseTime : Nat) (uid : String) (rid : Nat → String) :
    (handleSendMessage st content data now responseTime uid rid).events =
      st.events ++
        (match data.events with
         | some es => stampEvents responseTime es
         | none => []) := by
  cases h : data.events <;> simp [handleSendMessage, h]

/-- C9: once the client holds a (non-empty) conversation id, every
subsequent message is sent with that id and the stored id is never
overwritten by a send-response. -/
theorem conversation_id_stable_after_first_response
    (st : ClientState) (content : String) (data : TurnData)
    (now responseTime : Nat) (uid : String) (rid : Nat → String)
    (cid : String) (h : st.conversationId = some cid) (hne : cid ≠ "") :
    sentConversationId st = cid ∧
    (handleSendMessage st content data now responseTime uid
        rid).conversationId = some cid := by
  have hemp : cid.isEmpty = false := by
    cases hc : cid.isEmpty
    · rfl
    · exact absurd ((String.isEmpty_iff cid).mp hc) hne
  constructor
  · simp [sentConversationId, h]
  · simp [handleSendMessage, conversationIdFalsy, h, hemp]

theorem conversation_id_stable_after_first_response_witness :
    ({ initialClientState with
        conversationId := some "conv-42" } : ClientState).conversationId =
      some "conv-42" ∧ "conv-42" ≠ "" ∧
    (sentConversationId
        { initialClientState with conversationId := some "conv-42" } =
      "conv-42" ∧
    (handleSendMessage
        { initialClientState with conversationId := some "conv-42" }
        "show retention"
        { conversation_id := "conv-other", current_agent := "Triage Agent",
          context := {} }
        5 6 "user-1" (fun i => "resp-" ++ toString i)).conversationId =
      some "conv-42") :=
  ⟨rfl, by decide,
    conversation_id_stable_after_first_response _ _ _ _ _ _ _ _ rfl
      (by decide)⟩

/-- C8: every named field of the analysis context is optional (the empty
context is the one with every field absent), and looking up an absent or
unknown field yields `none` (null) for every field name, never an
error. -/
theorem analysis_context_fields_optional :
    (({} : GameAnalyticsContext) =
      { game_id := none, player_id := none, time_range := none,
        analysis_type := none, metrics := none, filters := none,
        session_id := none }) ∧
    (∀ field, contextGet {} field = none) ∧
    (∀ c : GameAnalyticsContext, ∀ field,
      field ∉ ["game_id", "player_id", "time_range", "analysis_type",
               "metrics", "filters", "session_id"] →
      contextGet c field = none) := by
  refine ⟨rfl, ?_, ?_⟩
  · intro field
    simp only [contextGet]
    repeat' split
    all_goals rfl
  · intro c field h
    simp only [List.mem_cons, List.not_mem_nil, or_false, not_or] at h
    obtain ⟨h1, h2, h3, h4, h5, h6, h7⟩ := h
    simp [contextGet, h1, h2, h3, h4, h5, h6, h7]

theorem analysis_context_fields_optional_witness :
    "player_segment" ∉
      ["game_id", "player_id", "time_range", "analysis_type",
       "metrics", "filters", "session_id"] ∧
    contextGet { game_id := some "g-1" } "player_segment" = none :=
  ⟨by decide,
    analysis_context_fields_optional.2.2 { game_id := some "g-1" }
      "player_segment" (by decide)⟩

/-- C10: in the context panel, a `time_range` object is displayed as
`"start - end"` with `N/A` for a missing side and its `period` field never
displayed, a `metrics` array is joined with `", "`, any other non-null
object is JSON-stringified, and a falsy display value renders as the
literal string `"null"`. -/
theorem context_panel_rendering :
    (∀ fields, formatDisplayValue "time_range" (.vObj fields) =
      .vStr (timeRangeSide ((JsValue.vObj fields).objGet "start") ++ " - " ++
        timeRangeSide ((JsValue.vObj fields).objGet "end"))) ∧
    (∀ p fields,
      formatDisplayValue "time_range" (.vObj (("period", p) :: fields)) =
        formatDisplayValue "time_range" (.vObj fields)) ∧
    (∀ elems, formatDisplayValue "metrics" (.vArr elems) =
      .vStr (jsArrayJoin ", " elems)) ∧
    (∀ key v, key ≠ "time_range" → key ≠ "metrics" →
      v.typeofObject = true → v.truthy = true →
      formatDisplayValue key v = .vStr (JsValue.jsonStringify v)) ∧
    (∀ key v, (formatDisplayValue key v).truthy = false →
      renderedContextValue key v = .vStr "null") := by
  refine ⟨fun fields => rfl, fun p fields => rfl, fun elems => rfl, ?_, ?_⟩
  · intro key v h1 h2 h3 h4
    simp [formatDisplayValue, h1, h2, h3, h4]
  · intro key v h
    simp [renderedContextValue, h]

theorem context_panel_rendering_witness :
    ("filters" ≠ "time_range" ∧ "filters" ≠ "metrics" ∧
      (JsValue.vObj [("country", .vStr "US")]).typeofObject = true ∧
      (JsValue.vObj [("country", .vStr "US")]).truthy = true ∧
      formatDisplayValue "filters" (.vObj [("country", .vStr "US")]) =
        .vStr (JsValue.jsonStringify (.vObj [("country", .vStr "US")]))) ∧
    ((formatDisplayValue "game_id" (.vStr "")).truthy = false ∧
      renderedContextValue "game_id" (.vStr "") = .vStr "null") :=
  ⟨⟨by decide, by decide, rfl, rfl,
    context_panel_rendering.2.2.2.1 "filters" _ (by decide) (by decide)
      rfl rfl⟩,
   ⟨rfl, context_panel_rendering.2.2.2.2 "game_id" _ rfl⟩⟩

/-- `Nat.toDigitsCore` pushes its accumulator to the right of the digits
it produces. -/
theorem toDigitsCore_append (fuel : Nat) :
    ∀ n ds, Nat.toDigitsCore 10 fuel n ds =
      Nat.toDigitsCore 10 fuel n [] ++ ds := by
  induction fuel with
  | zero => intro n ds; simp [Nat.toDigitsCore]
  | succ f ih =>
      intro n ds
      simp only [Nat.toDigitsCore]
      by_cases h : n / 10 = 0
      · simp [h]
      · simp only [h, if_false]
        rw [ih (n / 10) ((n % 10).digitChar :: ds),
          ih (n / 10) [(n % 10).digitChar]]
        simp

/-- `Nat.toDigitsCore` does not depend on the fuel once the fuel exceeds
the number. -/
theorem toDigitsCore_fuel_irrel :
    ∀ n f g, n < f → n < g →
      Nat.toDigitsCore 10 f n [] = Nat.toDigitsCore 10 g n [] := by
  intro n
  induction n using Nat.strong_induction_on with
  | _ n ih =>
      intro f g hf hg
      obtain ⟨f, rfl⟩ : ∃ k, f = k + 1 := ⟨f - 1, by omega⟩
      obtain ⟨g, rfl⟩ : ∃ k, g = k + 1 := ⟨g - 1, by omega⟩
      simp only [Nat.toDigitsCore]
      by_cases h : n / 10 = 0
      · simp [h]
      · have h10 : 10 ≤ n := by
          by_contra hlt
          exact h (Nat.div_eq_of_lt (by omega))
        have hdiv : n / 10 < n := Nat.div_lt_self (by omega) (by omega)
        simp only [h, if_false]
        rw [toDigitsCore_append f, toDigitsCore_append g,
          ih (n / 10) hdiv f g (by omega) (by omega)]

/-- The code point of a decimal digit character. -/
theorem digitChar_toNat (m : Nat) (hm : m < 10) :
    (Nat.digitChar m).toNat = m + 48 := by
  interval_cases m <;> rfl

/-- Appending one digit multiplies the decimal value by ten and adds the
digit. -/
theorem decimalVal_append_digit (xs : List Char) (c : Char) :
    decimalVal (xs ++ [c]) = decimalVal xs * 10 + (c.toNat - 48) := by
  simp [decimalVal, List.foldl_append]

/-- `decimalVal` inverts `Nat.toDigits`. -/
theorem decimalVal_toDigits (n : Nat) :
    decimalVal (Nat.toDigits 10 n) = n := by
  induction n using Nat.strong_induction_on with
  | _ n ih =>
      unfold Nat.toDigits
      simp only [Nat.toDigitsCore]
      by_cases h : n / 10 = 0
      · have hn : n < 10 := by omega
        simp only [h, if_true]
        rw [Nat.mod_eq_of_lt hn]
        have : decimalVal [n.digitChar] = n.digitChar.toNat - 48 := by
          simp [decimalVal]
        rw [this, digitChar_toNat n hn]
        omega
      · have h10 : 10 ≤ n := by
          by_contra hlt
          exact h (Nat.div_eq_of_lt (by omega))
        have hdiv : n / 10 < n := Nat.div_lt_self (by omega) (by omega)
        simp only [h, if_false]
        rw [toDigitsCore_append n,
          toDigitsCore_fuel_irrel (n / 10) n (n / 10 + 1) (by omega)
            (by omega),
          decimalVal_append_digit]
        have hrec : decimalVal (Nat.toDigits 10 (n / 10)) = n / 10 :=
          ih (n / 10) hdiv
        unfold Nat.toDigits at hrec
        rw [hrec, digitChar_toNat (n % 10) (Nat.mod_lt _ (by omega))]
        omega

/-- Decimal number strings are injective in the number. -/
theorem natRepr_injective :
    ∀ m n : Nat, Nat.repr m = Nat.repr n → m = n := by
  intro m n h
  have hd : Nat.toDigits 10 m = Nat.toDigits 10 n := congrArg String.data h
  calc m = decimalVal (Nat.toDigits 10 m) := (decimalVal_toDigits m).symm
    _ = decimalVal (Nat.toDigits 10 n) := by rw [hd]
    _ = n := decimalVal_toDigits n

/-- The ids assigned to a turn's events are pairwise distinct: each event
of a trace carries an id unique within that trace. -/
theorem assignEventIds_unique (es : List WireEvent) :
    ((assignEventIds es).map (fun e => e.id)).Nodup := by
  have hids : (assignEventIds es).map (fun e => e.id) =
      (List.range es.length).map (fun i => "evt-" ++ toString i) := by
    unfold assignEventIds
    have hcomp : ((fun e : WireEvent => e.id) ∘
        (fun ie : Nat × WireEvent =>
          { ie.2 with id := "evt-" ++ toString ie.1 })) =
        ((fun i : Nat => "evt-" ++ toString i) ∘ Prod.fst) := by
      funext ie
      rfl
    rw [List.map_map, hcomp, ← List.map_map, List.enum_map_fst]
  rw [hids]
  refine List.Nodup.map ?_ (List.nodup_range es.length)
  intro a b hab
  refine natRepr_injective a b (String.ext ?_)
  have := congrArg String.data hab
  rw [String.data_append, String.data_append] at this
  exact List.append_cancel_left this

/-- C7 (counterexample): per the declared `AgentEvent` type, `metadata` is
optional for every event kind — a well-typed `handoff` event carrying no
source/target metadata exists, so "every event carries type-specific
metadata" fails on the record type. -/
theorem event_metadata_not_mandatory_counterexample :
    ¬ carriesTypedMetadata
        { id := "evt-1", type := .handoff, agent := "Triage Agent",
          content := "Triage Agent -> Analytics Agent", timestamp := 0,
          metadata := none } := by
  simp [carriesTypedMetadata]

/-- C7 (amended): every event record carries a unique id (the engine
assigns pairwise-distinct ids to the events of a turn's trace), a type
that is one of exactly the five kinds, the producing agent's name, a
content string and a timestamp; the type-specific metadata object is
optional — for every event kind there is a well-typed event without
it. -/
theorem event_record_shape_amended :
    (∀ e : AgentEvent,
      e.type = .message ∨ e.type = .handoff ∨ e.type = .tool_call ∨
        e.type = .tool_output ∨ e.type = .context_update) ∧
    (∀ es : List WireEvent,
      ((assignEventIds es).map (fun e => e.id)).Nodup) ∧
    (∀ ty : EventType, ∃ e : AgentEvent, e.type = ty ∧ e.metadata = none) := by
  refine ⟨?_, assignEventIds_unique, ?_⟩
  · intro e
    rcases e with ⟨i, ty, ag, co, ts, md⟩
    cases ty <;> simp
  · intro ty
    exact ⟨{ id := "e", type := ty, agent := "a", content := "c",
             timestamp := 0, metadata := none }, rfl, rfl⟩

/-- C4: every turn response carries conversation id, current agent,
context, messages (content and agent per entry), events, guardrail
verdicts and agent summaries, and each agent summary exposes exactly the
name, description, handoff target names, tool names and guardrail
identifiers of its registry entry — never the instruction payload. -/
theorem turn_response_shape
    (cap : Capability) (tools : List (String × ToolImpl))
    (ge : GuardrailEval) (reg : List AgentDefinition) (cid : String)
    (agent : AgentDefinition) (ctx : GameAnalyticsContext) (input : String)
    (t : Nat) :
    ((runTurn cap tools ge reg cid agent ctx input t).response.conversation_id
        = cid ∧
      ((runTurn cap tools ge reg cid agent ctx input
          t).response.messages).isSome = true ∧
      ((runTurn cap tools ge reg cid agent ctx input
          t).response.events).isSome = true ∧
      ((runTurn cap tools ge reg cid agent ctx input
          t).response.guardrails).isSome = true ∧
      (runTurn cap tools ge reg cid agent ctx input t).response.agents =
        some (reg.map summarize)) ∧
    (∀ d : AgentDefinition, summarize d =
      { name := d.name, description := d.description,
        handoffs := d.handoffs, tools := d.tools,
        input_guardrails := d.input_guardrails }) ∧
    (∀ d : AgentDefinition, ∀ instr : String,
      summarize { d with instructions := instr } = summarize d) := by
  refine ⟨?_, fun d => rfl, fun d instr => rfl⟩
  simp only [runTurn]
  split
  · split <;> simp
  · simp

/-- C1: when the overall guardrail result of a turn fails, the model
capability is invoked zero times, the returned message equals the fixed
refusal text, and the trace for the turn still records a `message` event
together with the guardrail verdicts. -/
theorem guardrail_failure_short_circuit
    (cap : Capability) (tools : List (String × ToolImpl))
    (ge : GuardrailEval) (reg : List AgentDefinition) (cid : String)
    (agent : AgentDefinition) (ctx : GameAnalyticsContext) (input : String)
    (t : Nat)
    (hfail : (runGuardrails ge agent input t).all (fun v => v.passed)
      = false) :
    (runTurn cap tools ge reg cid agent ctx input t).modelCalls = 0 ∧
    (runTurn cap tools ge reg cid agent ctx input t).response.messages =
      some [⟨refusalText, agent.name⟩] ∧
    (∃ es, (runTurn cap tools ge reg cid agent ctx input
        t).response.events = some es ∧ ∃ e ∈ es, e.type = .message) ∧
    (runTurn cap tools ge reg cid agent ctx input t).response.guardrails =
      some (runGuardrails ge agent input t) := by
  refine ⟨?_, ?_, ?_, ?_⟩
  · simp [runTurn, hfail]
  · simp [runTurn, hfail]
  · refine ⟨assignEventIds [messageEvent agent.name refusalText], ?_, ?_⟩
    · simp [runTurn, hfail]
    · exact ⟨{ id := "evt-" ++ toString 0, type := .message,
               agent := agent.name,
               content := refusalText, timestamp := none,
               metadata := none }, by simp [assignEventIds, messageEvent], rfl⟩
  · simp [runTurn, hfail]

theorem guardrail_failure_short_circuit_witness :
    ((runGuardrails (fun _ _ => (false, "off-topic"))
        ⟨"Triage Agent", "routing", "hidden", [], [], ["relevance"]⟩
        "write a poem about strawberries" 0).all (fun v => v.passed)
      = false) ∧
    ((runTurn (fun _ _ => .finalMessage "hello") []
        (fun _ _ => (false, "off-topic")) [] "conv-1"
        ⟨"Triage Agent", "routing", "hidden", [], [], ["relevance"]⟩ {}
        "write a poem about strawberries" 0).modelCalls = 0 ∧
      (runTurn (fun _ _ => .finalMessage "hello") []
        (fun _ _ => (false, "off-topic")) [] "conv-1"
        ⟨"Triage Agent", "routing", "hidden", [], [], ["relevance"]⟩ {}
        "write a poem about strawberries" 0).response.messages =
        some [⟨refusalText, "Triage Agent"⟩] ∧
      (∃ es, (runTurn (fun _ _ => .finalMessage "hello") []
          (fun _ _ => (false, "off-topic")) [] "conv-1"
          ⟨"Triage Agent", "routing", "hidden", [], [], ["relevance"]⟩ {}
          "write a poem about strawberries" 0).response.events = some es ∧
            ∃ e ∈ es, e.type = .message) ∧
      (runTurn (fun _ _ => .finalMessage "hello") []
        (fun _ _ => (false, "off-topic")) [] "conv-1"
        ⟨"Triage Agent", "routing", "hidden", [], [], ["relevance"]⟩ {}
        "write a poem about strawberries" 0).response.guardrails =
        some (runGuardrails (fun _ _ => (false, "off-topic"))
          ⟨"Triage Agent", "routing", "hidden", [], [], ["relevance"]⟩
          "write a poem about strawberries" 0)) :=
  ⟨rfl,
    guardrail_failure_short_circuit (fun _ _ => .finalMessage "hello") []
      (fun _ _ => (false, "off-topic")) [] "conv-1"
      ⟨"Triage Agent", "routing", "hidden", [], [], ["relevance"]⟩ {}
      "write a poem about strawberries" 0 rfl⟩

/-- Against a capability that always requests a valid handoff, the
iteration loop always ends with `HandoffLoopDetected`, whatever the
handoff budget: the loop never hangs. -/
theorem runLoop_always_handoff
    (cap : Capability) (tools : List (String × ToolImpl))
    (reg : List AgentDefinition)
    (hcap : ∀ a c, a ∈ reg → ∃ tgt next, cap a c = .handoffRequest tgt ∧
      tgt ∈ a.handoffs ∧ regGet reg tgt = some next) :
    ∀ hBudget iBudget (agent : AgentDefinition)
      (ctx : GameAnalyticsContext), agent ∈ reg → 0 < iBudget →
      (runLoop cap tools reg hBudget iBudget agent ctx).outcome =
        .error .handoffLoopDetected := by
  intro hBudget
  induction hBudget with
  | zero =>
      intro iBudget agent ctx hmemreg hpos
      obtain ⟨i, rfl⟩ : ∃ i, iBudget = i + 1 := ⟨iBudget - 1, by omega⟩
      obtain ⟨tgt, next, hc, hmem, hreg⟩ := hcap agent ctx hmemreg
      rw [runLoop]
      simp [hc, hmem, hreg]
  | succ h ih =>
      intro iBudget agent ctx hmemreg hpos
      obtain ⟨i, rfl⟩ : ∃ i, iBudget = i + 1 := ⟨iBudget - 1, by omega⟩
      obtain ⟨tgt, next, hc, hmem, hreg⟩ := hcap agent ctx hmemreg
      rw [runLoop]
      simp only [hc, hmem, hreg, if_true]
      exact ih (i + 1) next ctx (List.mem_of_find?_eq_some hreg) (by omega)

/-- C3: even against a capability that requests a valid handoff at every
step, a turn terminates: once the handoffs in the turn would exceed the
configured bound (default 2), the turn fails with `HandoffLoopDetected`
instead of looping forever. -/
theorem handoff_bound_terminates_turn
    (cap : Capability) (tools : List (String × ToolImpl))
    (ge : GuardrailEval) (reg : List AgentDefinition) (cid : String)
    (agent : AgentDefinition) (ctx : GameAnalyticsContext) (input : String)
    (t : Nat)
    (hcap : ∀ a c, a ∈ reg → ∃ tgt next, cap a c = .handoffRequest tgt ∧
      tgt ∈ a.handoffs ∧ regGet reg tgt = some next)
    (hmemreg : agent ∈ reg)
    (hpass : (runGuardrails ge agent input t).all (fun v => v.passed)
      = true) :
    (runTurn cap tools ge reg cid agent ctx input t).outcome =
      .error .handoffLoopDetected := by
  have hloop := runLoop_always_handoff cap tools reg hcap maxHandoffs
    maxTurnIterations agent ctx hmemreg (by norm_num [maxTurnIterations])
  simp [runTurn, hpass, hloop]

theorem handoff_bound_terminates_turn_witness :
    (∀ a c, a ∈ chainRegistry → ∃ tgt next,
      alwaysHandoffCap a c = .handoffRequest tgt ∧ tgt ∈ a.handoffs ∧
        regGet chainRegistry tgt = some next) ∧
    (⟨"Triage Agent", "routing", "instr-a", [], ["Analytics Agent"],
      []⟩ : AgentDefinition) ∈ chainRegistry ∧
    ((runGuardrails (fun _ _ => (true, "ok"))
        ⟨"Triage Agent", "routing", "instr-a", [], ["Analytics Agent"], []⟩
        "show my retention" 0).all (fun v => v.passed) = true) ∧
    (runTurn alwaysHandoffCap [] (fun _ _ => (true, "ok")) chainRegistry
        "conv-2"
        ⟨"Triage Agent", "routing", "instr-a", [], ["Analytics Agent"], []⟩
        {} "show my retention" 0).outcome = .error .handoffLoopDetected := by
  have hcap : ∀ a c, a ∈ chainRegistry → ∃ tgt next,
      alwaysHandoffCap a c = .handoffRequest tgt ∧ tgt ∈ a.handoffs ∧
        regGet chainRegistry tgt = some next := by
    intro a c ha
    simp only [chainRegistry, List.mem_cons, List.not_mem_nil,
      or_false] at ha
    rcases ha with rfl | rfl
    · exact ⟨"Analytics Agent",
        ⟨"Analytics Agent", "analytics", "instr-b", [], ["Triage Agent"],
          []⟩, rfl, by decide, rfl⟩
    · exact ⟨"Triage Agent",
        ⟨"Triage Agent", "routing", "instr-a", [], ["Analytics Agent"],
          []⟩, rfl, by decide, rfl⟩
  exact ⟨hcap, by decide, rfl,
    handoff_bound_terminates_turn alwaysHandoffCap []
      (fun _ _ => (true, "ok")) chainRegistry "conv-2"
      ⟨"Triage Agent", "routing", "instr-a", [], ["Analytics Agent"], []⟩
      {} "show my retention" 0 hcap (by decide) rfl⟩

/-- Every `ok` outcome of the iteration loop carries exactly one final
message. -/
theorem runLoop_ok_singleton (cap : Capability)
    (tools : List (String × ToolImpl)) (reg : List AgentDefinition) :
    ∀ hB iB (agent : AgentDefinition) (ctx : GameAnalyticsContext)
      (msgs : List MessageItem),
      (runLoop cap tools reg hB iB agent ctx).outcome = .ok msgs →
      ∃ mi, msgs = [mi] := by
  intro hB iB agent ctx
  induction hB, iB, agent, ctx using runLoop.induct cap tools reg <;>
    intro msgs hout <;> rw [runLoop] at hout
  case case1 =>
    simp at hout
  case case2 =>
    rename_i text hcap
    simp [hcap] at hout
    exact ⟨_, hout.symm⟩
  case case3 =>
    rename_i hcap inv res hinv ih
    simp only [hcap] at hout
    split at hout
    · exact ih msgs hout
    · rename_i a heq
      exact absurd (hinv.symm.trans heq) (by simp)
  case case4 =>
    rename_i hcap inv err hinv
    simp only [hcap] at hout
    split at hout
    · rename_i a heq
      exact absurd (hinv.symm.trans heq) (by simp)
    · simp at hout
      exact ⟨_, hout.symm⟩
  case case5 =>
    rename_i i target hcap hmem next hreg
    simp [hcap, hmem, hreg] at hout
  case case6 =>
    rename_i i target hcap hmem next hreg h ih
    simp only [hcap, hmem, hreg, if_true] at hout
    exact ih msgs hout
  case case7 =>
    rename_i i target hcap hmem hreg
    simp [hcap, hmem, hreg] at hout
    exact ⟨_, hout.symm⟩
  case case8 =>
    rename_i i target hcap hmem
    simp [hcap, hmem] at hout
    exact ⟨_, hout.symm⟩

/-- Every engine turn response carries exactly one message (the final
answer, the degraded/generic failure message, or the refusal). -/
theorem runTurn_messages_singleton (cap : Capability)
    (tools : List (String × ToolImpl)) (ge : GuardrailEval)
    (reg : List AgentDefinition) (cid : String) (agent : AgentDefinition)
    (ctx : GameAnalyticsContext) (input : String) (t : Nat) :
    ∃ mi, (runTurn cap tools ge reg cid agent ctx input t).response.messages
      = some [mi] := by
  cases hpass : (runGuardrails ge agent input t).all (fun v => v.passed) with
  | false =>
      exact ⟨⟨refusalText, agent.name⟩, by simp [runTurn, hpass]⟩
  | true =>
      cases hr : (runLoop cap tools reg maxHandoffs maxTurnIterations
          agent ctx).outcome with
      | ok msgs =>
          obtain ⟨mi, rfl⟩ := runLoop_ok_singleton cap tools reg
            maxHandoffs maxTurnIterations agent ctx msgs hr
          exact ⟨mi, by simp [runTurn, hpass, hr]⟩
      | error e =>
          exact ⟨⟨genericFailureText,
            (runLoop cap tools reg maxHandoffs maxTurnIterations agent
              ctx).finalAgent⟩, by simp [runTurn, hpass, hr]⟩

/-- C6: for every turn with non-empty user input, the conversation
history grows by exactly one user entry and by one or more assistant
messages, and no existing history entry is modified or removed (stated
for a turn response produced by the engine, which always carries at least
one message). -/
theorem history_grows_by_user_and_assistant
    (st : ClientState) (cap : Capability) (tools : List (String × ToolImpl))
    (ge : GuardrailEval) (reg : List AgentDefinition) (cid : String)
    (agent : AgentDefinition) (ctx : GameAnalyticsContext) (content : String)
    (t now responseTime : Nat) (uid : String) (rid : Nat → String)
    (hin : content ≠ "") :
    ∃ responses : List Message,
      (handleSendMessage st content
          (runTurn cap tools ge reg cid agent ctx content t).response
          now responseTime uid rid).messages =
        st.messages ++
          ({ id := uid, content := content, role := .user, agent := none,
             timestamp := now } : Message) :: responses ∧
      1 ≤ responses.length ∧
      (∀ m ∈ responses, m.role = .assistant) := by
  obtain ⟨mi, hmi⟩ := runTurn_messages_singleton cap tools ge reg cid agent
    ctx content t
  refine ⟨[({ id := rid 0, content := mi.content, role := .assistant,
              agent := some mi.agent,
              timestamp := responseTime + 0 } : Message)],
    ?_, by simp, ?_⟩
  · simp [handleSendMessage, hmi]
  · intro m hm
    simp only [List.mem_singleton] at hm
    subst hm
    rfl

theorem history_grows_by_user_and_assistant_witness :
    ("show DAU for last week" ≠ "") ∧
    (∃ responses : List Message,
      (handleSendMessage initialClientState "show DAU for last week"
          (runTurn (fun _ _ => .finalMessage "DAU was 5") []
            (fun _ _ => (true, "ok")) [] "conv-3"
            ⟨"Analytics Agent", "analytics", "instr", [], [], []⟩ {}
            "show DAU for last week" 0).response
          7 8 "user-7" (fun i => "resp-" ++ toString i)).messages =
        initialClientState.messages ++
          ({ id := "user-7", content := "show DAU for last week",
             role := .user, agent := none, timestamp := 7 } : Message) ::
            responses ∧
      1 ≤ responses.length ∧
      (∀ m ∈ responses, m.role = .assistant)) :=
  ⟨by decide,
    history_grows_by_user_and_assistant initialClientState
      (fun _ _ => .finalMessage "DAU was 5") [] (fun _ _ => (true, "ok")) []
      "conv-3" ⟨"Analytics Agent", "analytics", "instr", [], [], []⟩ {}
      "show DAU for last week" 0 7 8 "user-7"
      (fun i => "resp-" ++ toString i) (by decide)⟩
